import Mathlib

set_option linter.unusedVariables false

/-!
# Verification of the TinyEKF correction step (`tinyekf.hpp`)

Shallow embedding of the `TinyEKF` class over exact rational arithmetic.
The dense linear-algebra kernel (`linalg.hpp`) is not part of the sources;
its operations (`newmat`, `matmul`, `transpose`, `add`, `invert`) are
modelled from the spec's Matrix Kernel contract, with matrices represented
as `Matrix (Fin r) (Fin c) ℚ`.
-/

namespace TinyEKF

/-- Whether a call to `update` hands control back to its caller or
terminates the host process (the C++ `exit(code)`). -/
inductive ControlOutcome where
  | returned
  | exited (code : ℤ)
deriving DecidableEq

/-- The `TinyEKF` engine state: every `double*` / `double**` member of the
C++ class, with fixed dimensions `n` (state) and `m` (measurement) carried
in the type.  Field names follow `tinyekf.hpp`. -/
structure EKF (n m : ℕ) where
  X : Fin n → ℚ
  P : Matrix (Fin n) (Fin n) ℚ
  Q : Matrix (Fin n) (Fin n) ℚ
  R : Matrix (Fin m) (Fin m) ℚ
  G : Matrix (Fin n) (Fin m) ℚ
  Xp : Fin n → ℚ
  fy : Matrix (Fin n) (Fin n) ℚ
  H : Matrix (Fin m) (Fin n) ℚ
  gXp : Fin m → ℚ
  Ht : Matrix (Fin n) (Fin m) ℚ
  Pp_Ht : Matrix (Fin n) (Fin m) ℚ
  fy_P : Matrix (Fin n) (Fin n) ℚ
  fyt : Matrix (Fin n) (Fin n) ℚ
  Pp : Matrix (Fin n) (Fin n) ℚ
  H_Pp : Matrix (Fin m) (Fin n) ℚ
  H_Pp_Ht : Matrix (Fin m) (Fin m) ℚ
  inv : Matrix (Fin m) (Fin m) ℚ
  tmp_n : Fin n → ℚ

/-- Modelled from the spec: `allocate(rows, cols)` of the Matrix Kernel
(`newmat` in `linalg.hpp`, which is absent from the sources) returns a
zero-initialized matrix. -/
def newmat (r c : ℕ) : Matrix (Fin r) (Fin c) ℚ := 0

/-- Modelled from the spec: `invert(A, rows)` of the Matrix Kernel
(`linalg.hpp`, absent from the sources) computes `A⁻¹` by Gauss-Jordan
elimination and fails with `SingularMatrixError` when a pivot is (within
numerical tolerance) zero; over exact rational arithmetic the failure
condition is `A.det = 0`.  On failure the caller must not use the
partially-inverted output; that unusable output is modelled as `0`. -/
def invertQ {k : ℕ} (A : Matrix (Fin k) (Fin k) ℚ) : Matrix (Fin k) (Fin k) ℚ :=
  if A.det = 0 then 0 else A.det⁻¹ • A.adjugate

/-- Modelled from the spec: the condition under which the Matrix Kernel's
`invert` fails with `SingularMatrixError` (singular input, exact
arithmetic). -/
def SingularMatrixError {k : ℕ} (A : Matrix (Fin k) (Fin k) ℚ) : Prop :=
  A.det = 0

/-- A process-model callback `f(Xp, fy)`: reads the current state member
`X` of the engine, writes the predicted state `Xp` and the Jacobian `fy`. -/
def ProcessModel (n : ℕ) : Type :=
  (Fin n → ℚ) → (Fin n → ℚ) × Matrix (Fin n) (Fin n) ℚ

/-- A measurement-model callback `g(Xp, gXp, H)`: reads the predicted
state `Xp`, writes the predicted measurement `gXp` and the Jacobian `H`. -/
def MeasurementModel (n m : ℕ) : Type :=
  (Fin n → ℚ) → (Fin m → ℚ) × Matrix (Fin m) (Fin n) ℚ

/-- `TinyEKF::update(Z)`, transcribed line by line from `tinyekf.hpp`
(lines 168–195): steps 1–5 of the EKF recursion are computed into the
scratch members, after which the code executes `dump(this->G, n, m);
exit(0);` — steps 6–7 exist only as a comment.  The result is the engine
state at that point together with the control outcome.  `Z` is a formal
parameter the body never reads. -/
def update {n m : ℕ} (f : ProcessModel n) (g : MeasurementModel n m)
    (e : EKF n m) (Z : Fin m → ℚ) : EKF n m × ControlOutcome :=
  -- 1, 2: this->f(this->Xp, this->fy)
  let Xp := (f e.X).1
  let fy := (f e.X).2
  -- 3: this->g(this->Xp, this->gXp, this->H)
  let gXp := (g Xp).1
  let H := (g Xp).2
  -- 4
  let fy_P := fy * e.P
  let fyt := fy.transpose
  let Pp := fy_P * fyt + e.Q            -- matmul then in-place add of Q
  -- 5
  let Ht := H.transpose
  let Pp_Ht := Pp * Ht
  let H_Pp := H * Pp
  let H_Pp_Ht := H_Pp * Ht + e.R        -- matmul then in-place add of R
  let inv := invertQ H_Pp_Ht
  let G := Pp_Ht * inv
  ({ e with
      Xp := Xp, fy := fy, gXp := gXp, H := H,
      fy_P := fy_P, fyt := fyt, Pp := Pp,
      Ht := Ht, Pp_Ht := Pp_Ht, H_Pp := H_Pp, H_Pp_Ht := H_Pp_Ht,
      inv := inv, G := G },
   ControlOutcome.exited 0)

/-- The `TinyEKF(n, m)` constructor (`tinyekf.hpp` lines 85–115): every
matrix member is created with `newmat` (the spec's zero-initializing
`allocate`); the vector members `X`, `Xp`, `gXp` and `tmp_n` are created
with raw C++ `new double[k]`, which performs default-initialization — their
entries are the indeterminate values left by the allocator, passed to the
model as the parameters `rawX`, `rawXp`, `rawgXp`, `rawtmp`. -/
def construct (n m : ℕ) (rawX rawXp : Fin n → ℚ) (rawgXp : Fin m → ℚ)
    (rawtmp : Fin n → ℚ) : EKF n m :=
  { X := rawX, P := newmat n n, Q := newmat n n, R := newmat m m,
    G := newmat n m, H := newmat m n, fy := newmat n n,
    Xp := rawXp, gXp := rawgXp,
    Ht := newmat n m, Pp_Ht := newmat n m,
    fy_P := newmat n n, fyt := newmat n n, Pp := newmat n n,
    H_Pp := newmat m n, H_Pp_Ht := newmat m m, inv := newmat m m,
    tmp_n := rawtmp }

/-- One invocation `matmul(A, B, C, d1, d2, d3)` made by `update`: the
actual shapes of the operands `A` and `B` (as allocated by the
constructor) together with the three integer arguments passed. -/
structure MatmulCall where
  arows : ℕ
  acols : ℕ
  brows : ℕ
  bcols : ℕ
  d1 : ℕ
  d2 : ℕ
  d3 : ℕ
deriving DecidableEq

/-- The six `matmul` invocations of `update` (`tinyekf.hpp` lines
177–189) in source order: `fy·P`, `fy_P·fyt`, `Pp·Ht`, `H·Pp`,
`H_Pp·Ht`, `Pp_Ht·inv`, with the integer arguments exactly as written at
each call site. -/
def updateMatmulCalls (n m : ℕ) : List MatmulCall :=
  [ ⟨n, n, n, n, n, n, n⟩,     -- matmul(fy, P, fy_P, n, n, n)
    ⟨n, n, n, n, n, n, n⟩,     -- matmul(fy_P, fyt, Pp, n, n, n)
    ⟨n, n, n, m, n, m, n⟩,     -- matmul(Pp, Ht, Pp_Ht, n, m, n)
    ⟨m, n, n, n, m, n, n⟩,     -- matmul(H, Pp, H_Pp, m, n, n)
    ⟨m, n, n, m, m, m, n⟩,     -- matmul(H_Pp, Ht, H_Pp_Ht, m, m, n)
    ⟨n, m, m, m, n, m, m⟩ ]    -- matmul(Pp_Ht, inv, G, n, m, m)

/-- Consistency of one call with the contract as the spec words it,
`multiply(A, B, rowsA, colsA, colsB)`: the three integers are read as
(rowsA, colsA, colsB) and the precondition is that `A`'s column count
equals `B`'s row count. -/
def SpecOrderConsistent (c : MatmulCall) : Prop :=
  c.d1 = c.arows ∧ c.d2 = c.acols ∧ c.d3 = c.bcols ∧ c.acols = c.brows

instance (c : MatmulCall) : Decidable (SpecOrderConsistent c) := by
  unfold SpecOrderConsistent
  infer_instance

/-- Consistency of one call with the integer-argument order the source's
call sites actually use: the three integers are read as
(rowsA, colsB, colsA), with the same precondition. -/
def SourceOrderConsistent (c : MatmulCall) : Prop :=
  c.d1 = c.arows ∧ c.d2 = c.bcols ∧ c.d3 = c.acols ∧ c.acols = c.brows

instance (c : MatmulCall) : Decidable (SourceOrderConsistent c) := by
  unfold SourceOrderConsistent
  infer_instance

/-- The spec's scalar worked example: `n = m = 1`, `Q = 1e-4`,
`R = 1e-2`, initial `X = 0`, `P = 1`, set by the caller after
construction (heap residue in the raw vectors taken as zero). -/
def scalarEngine : EKF 1 1 :=
  { construct 1 1 (fun _ => 0) (fun _ => 0) (fun _ => 0) (fun _ => 0) with
      P := !![1], Q := !![1/10000], R := !![1/100] }

/-- The scalar example's process model: `processModel(x) = (x, 1.0)`
(identity dynamics, unit Jacobian). -/
def scalarF : ProcessModel 1 := fun x => (x, !![1])

/-- The scalar example's measurement model:
`measurementModel(x) = (x, 1.0)`. -/
def scalarG : MeasurementModel 1 1 := fun x => (x, !![1])

/-- On a nonsingular input, the modelled kernel inversion agrees with the
mathematical matrix inverse. -/
theorem invertQ_eq_inv {k : ℕ} (A : Matrix (Fin k) (Fin k) ℚ)
    (h : A.det ≠ 0) : invertQ A = A⁻¹ := by
  rw [invertQ, if_neg h, Matrix.inv_def, Ring.inverse_eq_inv]

/-- C9: `update` never writes the engine members `X`, `P`, `Q`, `R`:
after any call the stored state, covariance and noise matrices equal
their values at entry — only the scratch members and the gain `G` are
written. -/
theorem update_frame {n m : ℕ} (f : ProcessModel n)
    (g : MeasurementModel n m) (e : EKF n m) (Z : Fin m → ℚ) :
    (update f g e Z).1.X = e.X ∧ (update f g e Z).1.P = e.P ∧
    (update f g e Z).1.Q = e.Q ∧ (update f g e Z).1.R = e.R :=
  ⟨rfl, rfl, rfl, rfl⟩

/-- C2: contrary to the spec, `update` always terminates the host
process: for every engine, every pair of callbacks and every measurement
`Z`, the call ends in `exit(0)` and never hands control back to the
caller — no failure (in particular no singular `S`) is ever returned as a
`SingularMatrixError` result. -/
theorem update_always_exits {n m : ℕ} (f : ProcessModel n)
    (g : MeasurementModel n m) (e : EKF n m) (Z : Fin m → ℚ) :
    (update f g e Z).2 = ControlOutcome.exited 0 ∧
    (update f g e Z).2 ≠ ControlOutcome.returned :=
  ⟨rfl, fun h => nomatch h⟩

/-- C1: contrary to the spec, a call to `update(Z)` does not set
`X = Xp + G·(Z − gXp)` and `P = (I − G·H)·Pp` and does not return
control: on the spec's own scalar example with `Z = 1` the state stays
`X = 0` and the covariance stays `P = 1` (steps 6–7 are only a comment
in the source), and the call ends in `exit(0)`. -/
theorem update_drops_correction_steps :
    (update scalarF scalarG scalarEngine (fun _ => 1)).1.X = (fun _ => 0) ∧
    (update scalarF scalarG scalarEngine (fun _ => 1)).1.P = !![1] ∧
    (update scalarF scalarG scalarEngine (fun _ => 1)).2 =
      ControlOutcome.exited 0 :=
  ⟨rfl, rfl, rfl⟩

/-- C3: the scalar worked example, run through the code: the predicted
covariance `Pp = 1.0001` and the gain `G = 10001/10101 ≈ 0.9901` match
the spec's values (the gain to within `10⁻⁴`), but the claimed new
`X ≈ 0.9901` and new `P ≈ 0.0099` never appear: `update` leaves `X = 0`
and `P = 1` and exits the process. -/
theorem scalar_example_run :
    (update scalarF scalarG scalarEngine (fun _ => 1)).1.Pp = !![10001/10000] ∧
    (update scalarF scalarG scalarEngine (fun _ => 1)).1.G = !![10001/10101] ∧
    |(10001 : ℚ)/10101 - 9901/10000| < 1/10000 ∧
    (update scalarF scalarG scalarEngine (fun _ => 1)).1.X = (fun _ => 0) ∧
    (update scalarF scalarG scalarEngine (fun _ => 1)).1.P = !![1] ∧
    (update scalarF scalarG scalarEngine (fun _ => 1)).2 =
      ControlOutcome.exited 0 := by
  refine ⟨?_, ?_, by rw [abs_sub_lt_iff]; norm_num, rfl, rfl, rfl⟩
  · ext i j
    fin_cases i
    fin_cases j
    norm_num [update, scalarEngine, scalarF, scalarG, construct,
      Matrix.mul_apply, Fin.sum_univ_one, Matrix.transpose_apply,
      Matrix.vecHead, Matrix.vecTail, Matrix.cons_val_zero, Matrix.of_apply]
  · ext i j
    fin_cases i
    fin_cases j
    norm_num [update, invertQ, scalarEngine, scalarF, scalarG, construct,
      Matrix.mul_apply, Fin.sum_univ_one, Matrix.transpose_apply,
      Matrix.vecHead, Matrix.vecTail, Matrix.cons_val_zero, Matrix.of_apply,
      Matrix.det_fin_one, Matrix.adjugate_fin_one, Matrix.smul_apply]

/-- C5: after the process callback has produced `fy`, the predicted
covariance stored in `Pp` equals `fy · P · fyᵗ + Q`, with `P` and `Q`
the engine's matrices at entry to the call. -/
theorem update_Pp_formula {n m : ℕ} (f : ProcessModel n)
    (g : MeasurementModel n m) (e : EKF n m) (Z : Fin m → ℚ) :
    (update f g e Z).1.Pp =
      (f e.X).2 * e.P * ((f e.X).2).transpose + e.Q :=
  rfl

/-- C4: whenever the innovation covariance `S = H · Pp · Hᵗ + R` is
invertible, the gain stored in `G` (an n×m matrix by construction)
equals `Pp · Hᵗ · S⁻¹`, where `H` is the Jacobian produced by the
measurement callback and `Pp = fy · P · fyᵗ + Q`. -/
theorem update_gain_formula {n m : ℕ} (f : ProcessModel n)
    (g : MeasurementModel n m) (e : EKF n m) (Z : Fin m → ℚ)
    (hS : ((g (f e.X).1).2 *
        ((f e.X).2 * e.P * ((f e.X).2).transpose + e.Q) *
        ((g (f e.X).1).2).transpose + e.R).det ≠ 0) :
    (update f g e Z).1.G =
      ((f e.X).2 * e.P * ((f e.X).2).transpose + e.Q) *
        ((g (f e.X).1).2).transpose *
        ((g (f e.X).1).2 *
          ((f e.X).2 * e.P * ((f e.X).2).transpose + e.Q) *
          ((g (f e.X).1).2).transpose + e.R)⁻¹ := by
  have h1 : (update f g e Z).1.G =
      ((f e.X).2 * e.P * ((f e.X).2).transpose + e.Q) *
        ((g (f e.X).1).2).transpose *
        invertQ ((g (f e.X).1).2 *
          ((f e.X).2 * e.P * ((f e.X).2).transpose + e.Q) *
          ((g (f e.X).1).2).transpose + e.R) := rfl
  rw [h1, invertQ_eq_inv _ hS]

/-- C4 witness: the gain formula instantiated on the scalar example,
where `S = 10101/10000` is invertible. -/
theorem update_gain_formula_witness :
    ((scalarG (scalarF scalarEngine.X).1).2 *
        ((scalarF scalarEngine.X).2 * scalarEngine.P *
          ((scalarF scalarEngine.X).2).transpose + scalarEngine.Q) *
        ((scalarG (scalarF scalarEngine.X).1).2).transpose +
        scalarEngine.R).det ≠ 0 ∧
    (update scalarF scalarG scalarEngine (fun _ => 1)).1.G =
      ((scalarF scalarEngine.X).2 * scalarEngine.P *
          ((scalarF scalarEngine.X).2).transpose + scalarEngine.Q) *
        ((scalarG (scalarF scalarEngine.X).1).2).transpose *
        ((scalarG (scalarF scalarEngine.X).1).2 *
          ((scalarF scalarEngine.X).2 * scalarEngine.P *
            ((scalarF scalarEngine.X).2).transpose + scalarEngine.Q) *
          ((scalarG (scalarF scalarEngine.X).1).2).transpose +
          scalarEngine.R)⁻¹ := by
  have hS : ((scalarG (scalarF scalarEngine.X).1).2 *
      ((scalarF scalarEngine.X).2 * scalarEngine.P *
        ((scalarF scalarEngine.X).2).transpose + scalarEngine.Q) *
      ((scalarG (scalarF scalarEngine.X).1).2).transpose +
      scalarEngine.R).det ≠ 0 := by
    norm_num [scalarEngine, scalarF, scalarG, construct,
      Matrix.det_fin_one, Matrix.mul_apply, Fin.sum_univ_one,
      Matrix.transpose_apply, Matrix.vecHead, Matrix.vecTail,
      Matrix.cons_val_zero, Matrix.of_apply]
  exact ⟨hS, update_gain_formula scalarF scalarG scalarEngine (fun _ => 1) hS⟩

/-- C8: if `P` and `Q` are symmetric at entry, then after `update` both
the stored covariance `P` (unchanged) and the predicted covariance `Pp`
are symmetric — exactly, over the rational arithmetic of the model. -/
theorem update_preserves_symmetry {n m : ℕ} (f : ProcessModel n)
    (g : MeasurementModel n m) (e : EKF n m) (Z : Fin m → ℚ)
    (hP : e.P.transpose = e.P) (hQ : e.Q.transpose = e.Q) :
    ((update f g e Z).1.Pp).transpose = (update f g e Z).1.Pp ∧
    ((update f g e Z).1.P).transpose = (update f g e Z).1.P := by
  constructor
  · have h1 : (update f g e Z).1.Pp =
        (f e.X).2 * e.P * ((f e.X).2).transpose + e.Q := rfl
    rw [h1]
    simp [Matrix.transpose_add, Matrix.transpose_mul,
      Matrix.transpose_transpose, hP, hQ, Matrix.mul_assoc]
  · have h2 : (update f g e Z).1.P = e.P := rfl
    rw [h2, hP]

/-- C8 witness: symmetry preservation instantiated on the scalar
example, whose 1×1 matrices `P` and `Q` are trivially symmetric. -/
theorem update_preserves_symmetry_witness :
    scalarEngine.P.transpose = scalarEngine.P ∧
    scalarEngine.Q.transpose = scalarEngine.Q ∧
    (((update scalarF scalarG scalarEngine (fun _ => 1)).1.Pp).transpose =
        (update scalarF scalarG scalarEngine (fun _ => 1)).1.Pp ∧
      ((update scalarF scalarG scalarEngine (fun _ => 1)).1.P).transpose =
        (update scalarF scalarG scalarEngine (fun _ => 1)).1.P) := by
  have hP : scalarEngine.P.transpose = scalarEngine.P := by
    ext i j
    fin_cases i
    fin_cases j
    rfl
  have hQ : scalarEngine.Q.transpose = scalarEngine.Q := by
    ext i j
    fin_cases i
    fin_cases j
    rfl
  exact ⟨hP, hQ,
    update_preserves_symmetry scalarF scalarG scalarEngine (fun _ => 1) hP hQ⟩

/-- C6 counterexample: the call `matmul(Pp, Ht, Pp_Ht, n, m, n)` of
`update`, at `n = 2`, `m = 1`, is not consistent with the contract read
in the spec's argument order `multiply(A, B, rowsA, colsA, colsB)`: it
passes `(2, 1, 2)` while `Pp` is 2×2 and `Ht` is 2×1, so the middle
argument `1` is neither `Pp`'s column count nor is the last argument `2`
`Ht`'s column count. -/
theorem matmul_spec_order_violated :
    (⟨2, 2, 2, 1, 2, 1, 2⟩ : MatmulCall) ∈ updateMatmulCalls 2 1 ∧
    ¬ SpecOrderConsistent ⟨2, 2, 2, 1, 2, 1, 2⟩ := by
  constructor
  · simp [updateMatmulCalls]
  · intro h
    exact absurd h.2.1 (by decide)

/-- C6 amended: every `matmul` invocation of `update` is dimensionally
consistent once the integer arguments are read in the order the call
sites actually use, `(rowsA, colsB, colsA)` — for all `n` and `m`, each
call's operands satisfy colsA = rowsB and the three integers are
(rowsA, colsB, colsA). -/
theorem matmul_calls_source_order_consistent (n m : ℕ) :
    (updateMatmulCalls n m).Forall SourceOrderConsistent := by
  simp [updateMatmulCalls, List.Forall, SourceOrderConsistent]

/-- C7 counterexample: the constructor does not zero-initialize the
state vector `X`: it allocates it with raw `new double[n]`, whose
contents are the allocator's residue — with residue `1` at dimensions
`(1, 1)`, the constructed engine has `X 0 = 1 ≠ 0`. -/
theorem construct_X_not_zeroed :
    (construct 1 1 (fun _ => 1) (fun _ => 0) (fun _ => 0) (fun _ => 0)).X 0
      ≠ 0 := by
  norm_num [construct]

/-- C7 amended: for all dimensions and any allocator residue in the raw
vectors, the matrix members `Q`, `R` and `P` of a freshly constructed
engine are zero-initialized (they come from the kernel's zeroing
`allocate`); the vector `X` is exempt. -/
theorem construct_zeroes_Q_R_P (n m : ℕ) (rX rXp rt : Fin n → ℚ)
    (rg : Fin m → ℚ) :
    (construct n m rX rXp rg rt).Q = 0 ∧
    (construct n m rX rXp rg rt).R = 0 ∧
    (construct n m rX rXp rg rt).P = 0 :=
  ⟨rfl, rfl, rfl⟩

end TinyEKF
